import Mathlib

/-!
Shallow embedding of the game model of the artillery-duel repository
(`gamemodel.py`).  Real-valued program quantities (Python floats) are
modelled as exact rationals `ℚ`; Python `int` counters as `ℤ`.  The
trigonometric decomposition used when a projectile is created
(`velocity * cos(radians(angle))`) is abstracted over the math library:
`cosDeg`/`sinDeg` parameters stand for `cos ∘ radians` and
`sin ∘ radians`.  The `Player → Game` back-reference of the source is
replaced by passing the two values actually read through it
(`game.wind`, `game.getProjectileRadius()`) as explicit arguments.
-/

namespace ArtilleryGame

/-- Module-level constant `X_LOWER = -110`. -/
def X_LOWER : ℚ := -110

/-- Module-level constant `X_UPPER = 110`. -/
def X_UPPER : ℚ := 110

/-- Module-level constant `PLAYER_0_STARTING_X = -90`. -/
def PLAYER_0_STARTING_X : ℚ := -90

/-- Module-level constant `PLAYER_1_STARTING_X = 90`. -/
def PLAYER_1_STARTING_X : ℚ := 90

/-- Module-level constant `STARTING_AIM = (45, 40)`. -/
def STARTING_AIM : ℚ × ℚ := (45, 40)

/-- Module-level constant `WIND_SELECTION_RANGE = 10`. -/
def WIND_SELECTION_RANGE : ℚ := 10

/-- State of `class Projectile`: the fields set by `Projectile.__init__`. -/
structure Projectile where
  wind : ℚ
  y_pos : ℚ
  x_pos : ℚ
  x_lower : ℚ
  x_upper : ℚ
  xvel : ℚ
  yvel : ℚ
deriving Repr, DecidableEq

/-- `Projectile.__init__(angle, velocity, wind, x_pos, y_pos, x_lower,
x_upper)`: stores the scalar fields and decomposes `(angle, velocity)`
into velocity components, `xvel = velocity * cos(radians(angle))` and
`yvel = velocity * sin(radians(angle))`; the math-library composites
`cos ∘ radians` and `sin ∘ radians` are the parameters `cosDeg`,
`sinDeg`. -/
def Projectile.create (cosDeg sinDeg : ℚ → ℚ)
    (angle velocity wind x_pos y_pos x_lower x_upper : ℚ) : Projectile :=
  { wind := wind
    y_pos := y_pos
    x_pos := x_pos
    x_lower := x_lower
    x_upper := x_upper
    xvel := velocity * cosDeg angle
    yvel := velocity * sinDeg angle }

/-- The current x-position of the projectile (`Projectile.getX`). -/
def Projectile.getX (p : Projectile) : ℚ := p.x_pos

/-- The current y-position of the projectile (`Projectile.getY`). -/
def Projectile.getY (p : Projectile) : ℚ := p.y_pos

/-- `Projectile.update(time, drag_x, drag_y, ignore_x_limits)`, line by
line: new raw velocities from gravity and wind, trapezoidal position
advance, clamp `y_pos ≥ 0`, clamp `x_pos` into `[x_lower, x_upper]`
unless `ignore_x_limits`, then store the dragged new velocities.
The Python defaults are `drag_x = drag_y = 1`, `ignore_x_limits =
false`; here all arguments are explicit. -/
def Projectile.update (p : Projectile)
    (time drag_x drag_y : ℚ) (ignore_x_limits : Bool) : Projectile :=
  let yvel1 := p.yvel - 9.8 * time
  let xvel1 := p.xvel + p.wind * time
  let x1 := p.x_pos + time * (p.xvel + xvel1) / 2
  let y1 := p.y_pos + time * (p.yvel + yvel1) / 2
  let y2 := max y1 0
  let x2 := if ignore_x_limits then x1 else min (max x1 p.x_lower) p.x_upper
  { p with
    x_pos := x2
    y_pos := y2
    xvel := xvel1 * drag_x
    yvel := yvel1 * drag_y }

/-- `Projectile.isMoving()`:
`0 < self.getY() and self.x_lower < self.getX() < self.x_upper`. -/
def Projectile.isMoving (p : Projectile) : Bool :=
  decide (0 < p.getY ∧ p.x_lower < p.getX ∧ p.getX < p.x_upper)

/-- State of `class Player`: the fields set by `Player.__init__`, with
the `game` back-reference dropped (its two reads are passed explicitly
to the operations that use them). -/
structure Player where
  is_reversed : Bool
  size : ℚ
  pos : ℚ × ℚ
  color : String
  score : ℤ
  aim : ℚ × ℚ
deriving Repr, DecidableEq

/-- `Player.__init__(game, is_reversed, size, x_pos, color)`: the
centre rests on the ground, `pos = (x_pos, size / 2)`; `score = 0`;
`aim = STARTING_AIM`. -/
def Player.create (is_reversed : Bool) (size x_pos : ℚ) (color : String) : Player :=
  { is_reversed := is_reversed
    size := size
    pos := (x_pos, size / 2)
    color := color
    score := 0
    aim := STARTING_AIM }

/-- `Player.fire(angle, velocity)`: mirrors the angle (`180 - angle`)
when the player `is_reversed`, builds the projectile from the player's
centre with the game's current wind (passed here as `game_wind`) and
the module bounds, stores the (mirrored) aim, and returns the
projectile together with the updated player. -/
def Player.fire (cosDeg sinDeg : ℚ → ℚ) (pl : Player)
    (game_wind angle velocity : ℚ) : Projectile × Player :=
  let angle1 := if pl.is_reversed then 180 - angle else angle
  let projectile :=
    Projectile.create cosDeg sinDeg angle1 velocity game_wind
      pl.pos.1 pl.pos.2 X_LOWER X_UPPER
  (projectile, { pl with aim := (angle1, velocity) })

/-- `Player.projectileDistance(proj)`: x-axis edge gap between the
cannon square and the projectile disc; `projectile_radius` stands for
the read `self.game.getProjectileRadius()`. -/
def Player.projectileDistance (pl : Player) (projectile_radius : ℚ)
    (proj : Projectile) : ℚ :=
  let proj_half_size := projectile_radius
  let cannon_half_size := pl.size / 2
  let total_overlap_size := cannon_half_size + proj_half_size
  let cannon_center := pl.pos.1
  let proj_center := proj.getX
  let raw_distance := proj_center - cannon_center
  if |raw_distance| < total_overlap_size then 0
  else raw_distance - total_overlap_size * (if raw_distance > 0 then 1 else -1)

/-- `Player.collisionCheck(proj)`: exact circle against axis-aligned
square intersection, with the source's case order; `projectile_radius`
stands for the read `self.game.getProjectileRadius()`. -/
def Player.collisionCheck (pl : Player) (projectile_radius : ℚ)
    (proj : Projectile) : Bool :=
  let circle_distance_x := |proj.getX - pl.pos.1|
  let circle_distance_y := |proj.getY - pl.pos.2|
  let projectile_r := projectile_radius
  let half_size := pl.size / 2
  if circle_distance_x > half_size + projectile_r ∨
      circle_distance_y > half_size + projectile_r then
    false
  else if circle_distance_x ≤ half_size ∨ circle_distance_y ≤ half_size then
    true
  else
    decide ((circle_distance_x - half_size) ^ 2 +
      (circle_distance_y - half_size) ^ 2 ≤ projectile_r ^ 2)

/-- `Player.closestPoint(x, y)`: clamp the point into the square
extent on both axes. -/
def Player.closestPoint (pl : Player) (x y : ℚ) : ℚ × ℚ :=
  let half_size := pl.size / 2
  (max (pl.pos.1 - half_size) (min x (pl.pos.1 + half_size)),
   max (pl.pos.2 - half_size) (min y (pl.pos.2 + half_size)))

/-- `Player.increaseScore(n)`: `self.score += n` (Python default
`n = 1`; here explicit). -/
def Player.increaseScore (pl : Player) (n : ℤ) : Player :=
  { pl with score := pl.score + n }

/-- `Player.getScore()`. -/
def Player.getScore (pl : Player) : ℤ := pl.score

/-- `Player.getAim()`. -/
def Player.getAim (pl : Player) : ℚ × ℚ := pl.aim

/-- One score- or state-mutating core operation on a player, used to
state monotonicity of the score across operation sequences: either
`increaseScore n` or `fire wind angle velocity`. -/
inductive PlayerOp where
  | increase (n : ℤ)
  | fireOp (wind angle velocity : ℚ)
deriving Repr

/-- Apply one `PlayerOp` to a player (the projectile a fire returns is
dropped; only the player state matters here). -/
def Player.applyOp (cosDeg sinDeg : ℚ → ℚ) (pl : Player) : PlayerOp → Player
  | .increase n => pl.increaseScore n
  | .fireOp w a v => (pl.fire cosDeg sinDeg w a v).2

/-- Apply a sequence of `PlayerOp`s left to right. -/
def Player.runOps (cosDeg sinDeg : ℚ → ℚ) (pl : Player)
    (ops : List PlayerOp) : Player :=
  ops.foldl (Player.applyOp cosDeg sinDeg) pl

/-- State of `class Game`: the fields set by `Game.__init__`. -/
structure Game where
  cannon_size : ℚ
  projectile_radius : ℚ
  players : Player × Player
  current_player : ℕ
  wind : ℚ
deriving Repr, DecidableEq

/-- `Game.__init__(cannon_size, projectile_radius)`: player 0 at
`PLAYER_0_STARTING_X` not reversed, player 1 at `PLAYER_1_STARTING_X`
reversed; `current_player = 0`; `wind = 0`. -/
def Game.create (cannon_size projectile_radius : ℚ) : Game :=
  { cannon_size := cannon_size
    projectile_radius := projectile_radius
    players :=
      (Player.create false cannon_size PLAYER_0_STARTING_X "red",
       Player.create true cannon_size PLAYER_1_STARTING_X "blue")
    current_player := 0
    wind := 0 }

/-- `Game.nextPlayer()`:
`self.current_player = 0 if self.current_player == 1 else 1`. -/
def Game.nextPlayer (g : Game) : Game :=
  { g with current_player := if g.current_player = 1 then 0 else 1 }

/-- `Game.setCurrentWind(wind)`. -/
def Game.setCurrentWind (g : Game) (wind : ℚ) : Game :=
  { g with wind := wind }

/-- `Game.newRound()`:
`self.wind = (random() * WIND_SELECTION_RANGE * 2) - WIND_SELECTION_RANGE`;
the uniform `[0, 1)` draw `random()` is the parameter `u`. -/
def Game.newRound (u : ℚ) (g : Game) : Game :=
  { g with wind := u * WIND_SELECTION_RANGE * 2 - WIND_SELECTION_RANGE }

/-- Reachable `Game` states: the constructed game, closed under the
mutating operations of the model (`nextPlayer`, `newRound`,
`setCurrentWind`) and under arbitrary replacement of the players pair,
which covers every player-level mutation (`fire`, `increaseScore`). -/
inductive Game.Reachable : Game → Prop where
  | init (cannon_size projectile_radius : ℚ) :
      Game.Reachable (Game.create cannon_size projectile_radius)
  | next {g : Game} : Game.Reachable g → Game.Reachable g.nextPlayer
  | round {g : Game} (u : ℚ) : Game.Reachable g → Game.Reachable (Game.newRound u g)
  | wind {g : Game} (w : ℚ) : Game.Reachable g → Game.Reachable (g.setCurrentWind w)
  | playersStep {g : Game} (ps : Player × Player) :
      Game.Reachable g → Game.Reachable { g with players := ps }

/-- Concrete player 0 of a game with cannon size 10 (half-side 5),
used for concrete evaluations. -/
def samplePlayer0 : Player := Player.create false 10 (-90) "red"

/-- Concrete player 1 of the same game, reversed, at `x = 90`. -/
def samplePlayer1 : Player := Player.create true 10 90 "blue"

/-- A resting projectile at a given x-position (all dynamic fields
zero, the module bounds). -/
def restingProjAt (x : ℚ) : Projectile :=
  { wind := 0, y_pos := 0, x_pos := x, x_lower := X_LOWER, x_upper := X_UPPER
    xvel := 0, yvel := 0 }

/-- A projectile state with inverted horizontal bounds
(`x_lower = 1 > 0 = x_upper`), constructible since the constructor
never validates the bounds. -/
def invertedBoundsProj : Projectile :=
  { wind := 0, y_pos := 5, x_pos := 0, x_lower := 1, x_upper := 0
    xvel := 0, yvel := 0 }

/-- A stationary projectile at position `(x, y)` with the module
bounds, used to state geometric properties at chosen positions. -/
def projAt (x y : ℚ) : Projectile :=
  { wind := 0, y_pos := y, x_pos := x, x_lower := X_LOWER, x_upper := X_UPPER
    xvel := 0, yvel := 0 }

end ArtilleryGame

namespace ArtilleryGame

/-- C2: one `update(dt, dragX, dragY, ignoreBounds)` computes the new
raw velocities `vy1 = vy - 9.8*dt`, `vx1 = vx + wind*dt`, advances the
position by the trapezoidal rule `x += dt*(vx+vx1)/2`,
`y += dt*(vy+vy1)/2`, clamps `y` to `≥ 0` (and `x` into
`[x_lower, x_upper]` unless `ignore_x_limits`), and stores
`vx = vx1*dragX`, `vy = vy1*dragY` — exactly this algorithm. -/
theorem update_trapezoidal (p : Projectile) (dt drag_x drag_y : ℚ) (b : Bool) :
    p.update dt drag_x drag_y b =
      { wind := p.wind
        y_pos := max (p.y_pos + dt * (p.yvel + (p.yvel - 9.8 * dt)) / 2) 0
        x_pos :=
          if b then p.x_pos + dt * (p.xvel + (p.xvel + p.wind * dt)) / 2
          else
            min (max (p.x_pos + dt * (p.xvel + (p.xvel + p.wind * dt)) / 2)
              p.x_lower) p.x_upper
        x_lower := p.x_lower
        x_upper := p.x_upper
        xvel := (p.xvel + p.wind * dt) * drag_x
        yvel := (p.yvel - 9.8 * dt) * drag_y } := rfl

/-- C4: `isMoving()` returns true if and only if `0 < y` and
`x_lower < x < x_upper`, with all three inequalities strict. -/
theorem isMoving_iff_strict (p : Projectile) :
    p.isMoving = true ↔
      0 < p.getY ∧ p.x_lower < p.getX ∧ p.getX < p.x_upper := by
  simp [Projectile.isMoving]

/-- C1 fails as stated: for a projectile left of the cannon and outside
the overlap band the code returns `raw + totalOverlap`, a negative
number, not `|raw| - totalOverlap ≥ 0`.  Concretely: cannon at
`x = -90` with half-side 5, projectile radius 3, projectile resting at
`x = -100`: `raw = -10`, `totalOverlap = 8`, and the result is `-2`. -/
theorem projectileDistance_negative_cex :
    samplePlayer0.projectileDistance 3 (restingProjAt (-100)) = -2 ∧
    ¬ 0 ≤ samplePlayer0.projectileDistance 3 (restingProjAt (-100)) := by
  constructor <;>
    norm_num [samplePlayer0, Player.create, restingProjAt,
      Player.projectileDistance, Projectile.getX]

/-- C1 amended: `projectileDistance` returns 0 when
`|raw| < totalOverlap`; otherwise it returns the signed gap
`raw - totalOverlap * sign(raw)` whose absolute value is
`|raw| - totalOverlap ≥ 0` — in particular `raw - totalOverlap` (≥ 0)
right of the cannon and `raw + totalOverlap` (≤ 0) left of it. -/
theorem projectileDistance_signed_gap (pl : Player) (r : ℚ) (proj : Projectile) :
    (|proj.getX - pl.pos.1| < pl.size / 2 + r →
      pl.projectileDistance r proj = 0) ∧
    (pl.size / 2 + r ≤ |proj.getX - pl.pos.1| →
      |pl.projectileDistance r proj| =
        |proj.getX - pl.pos.1| - (pl.size / 2 + r) ∧
      0 ≤ |proj.getX - pl.pos.1| - (pl.size / 2 + r) ∧
      (0 < proj.getX - pl.pos.1 →
        pl.projectileDistance r proj =
          (proj.getX - pl.pos.1) - (pl.size / 2 + r)) ∧
      (proj.getX - pl.pos.1 ≤ 0 →
        pl.projectileDistance r proj =
          (proj.getX - pl.pos.1) + (pl.size / 2 + r))) := by
  constructor
  · intro h
    simp only [Player.projectileDistance]
    rw [if_pos h]
  · intro h
    have hnot : ¬ |proj.getX - pl.pos.1| < pl.size / 2 + r := not_lt.mpr h
    by_cases hpos : 0 < proj.getX - pl.pos.1
    · have habs : |proj.getX - pl.pos.1| = proj.getX - pl.pos.1 :=
        abs_of_pos hpos
      have hval : pl.projectileDistance r proj =
          (proj.getX - pl.pos.1) - (pl.size / 2 + r) := by
        simp only [Player.projectileDistance]
        rw [if_neg hnot, if_pos hpos]
        ring
      refine ⟨?_, by linarith [abs_nonneg (proj.getX - pl.pos.1)], fun _ => hval,
        fun hle => absurd hpos (not_lt.mpr hle)⟩
      rw [hval, habs, abs_of_nonneg (by rw [habs] at h; linarith)]
    · have hle : proj.getX - pl.pos.1 ≤ 0 := not_lt.mp hpos
      have habs : |proj.getX - pl.pos.1| = -(proj.getX - pl.pos.1) :=
        abs_of_nonpos hle
      have hval : pl.projectileDistance r proj =
          (proj.getX - pl.pos.1) + (pl.size / 2 + r) := by
        simp only [Player.projectileDistance]
        rw [if_neg hnot, if_neg hpos]
        ring
      refine ⟨?_, by linarith [abs_nonneg (proj.getX - pl.pos.1)],
        fun hgt => absurd hgt hpos, fun _ => hval⟩
      rw [hval, habs, abs_of_nonpos (by rw [habs] at h; linarith)]
      ring

/-- Concrete instance of the amended C1 statement: projectile resting
at `x = -80`, cannon at `x = -90` with half-side 5 and radius 3 gives
gap `10 - 8 = 2`. -/
theorem projectileDistance_signed_gap_witness :
    samplePlayer0.projectileDistance 3 (restingProjAt (-80)) =
      ((restingProjAt (-80)).getX - samplePlayer0.pos.1) -
        (samplePlayer0.size / 2 + 3) :=
  ((projectileDistance_signed_gap samplePlayer0 3 (restingProjAt (-80))).2
    (by norm_num [samplePlayer0, Player.create, restingProjAt,
      Projectile.getX])).2.2.1
    (by norm_num [samplePlayer0, Player.create, restingProjAt, Projectile.getX])

/-- C3: after any `update` the height satisfies `y ≥ 0`; and when the
bounds form an interval (`x_lower ≤ x_upper`, as for every projectile
the game constructs) and `ignore_x_limits` is not set, the position
additionally satisfies `x_lower ≤ x ≤ x_upper`. -/
theorem update_position_clamped (p : Projectile) (dt drag_x drag_y : ℚ) (b : Bool) :
    0 ≤ (p.update dt drag_x drag_y b).y_pos ∧
    (p.x_lower ≤ p.x_upper → b = false →
      p.x_lower ≤ (p.update dt drag_x drag_y b).x_pos ∧
      (p.update dt drag_x drag_y b).x_pos ≤ p.x_upper) := by
  constructor
  · simp only [Projectile.update]
    exact le_max_right _ _
  · rintro hlu rfl
    simp only [Projectile.update, Bool.false_eq_true, if_false]
    exact ⟨le_min (le_max_right _ _) hlu, min_le_right _ _⟩

/-- Concrete instance of C3: the stationary projectile at the origin
stays clamped after one one-second update. -/
theorem update_position_clamped_witness :
    0 ≤ ((restingProjAt 0).update 1 1 1 false).y_pos ∧
    (restingProjAt 0).x_lower ≤ ((restingProjAt 0).update 1 1 1 false).x_pos ∧
    ((restingProjAt 0).update 1 1 1 false).x_pos ≤ (restingProjAt 0).x_upper :=
  ⟨(update_position_clamped (restingProjAt 0) 1 1 1 false).1,
   (update_position_clamped (restingProjAt 0) 1 1 1 false).2
     (by norm_num [restingProjAt, X_LOWER, X_UPPER]) rfl⟩

/-- `collisionCheck` only reads the projectile position through the
absolute offsets from the player's centre. -/
lemma collisionCheck_congr (pl : Player) (r : ℚ) (q q' : Projectile)
    (hx : |q.getX - pl.pos.1| = |q'.getX - pl.pos.1|)
    (hy : |q.getY - pl.pos.2| = |q'.getY - pl.pos.2|) :
    pl.collisionCheck r q = pl.collisionCheck r q' := by
  simp only [Player.collisionCheck, hx, hy]

/-- C5: `collisionCheck` with `dx = |proj.x - empl.x|`,
`dy = |proj.y - empl.y|`, `h = halfSide`, `r = projectileRadius`
returns false when `dx > h+r` or `dy > h+r`; otherwise true when
`dx ≤ h` or `dy ≤ h`; otherwise true iff
`(dx-h)^2 + (dy-h)^2 ≤ r^2`.  The result only depends on the absolute
offsets (so it is symmetric under reflecting either offset's sign), it
is true for a projectile centred at the emplacement's centre (for
nonnegative size and radius), and false beyond `h + r` on either
axis. -/
theorem collisionCheck_circle_square (pl : Player) (r : ℚ) (proj : Projectile) :
    ((pl.size / 2 + r < |proj.getX - pl.pos.1| ∨
        pl.size / 2 + r < |proj.getY - pl.pos.2|) →
      pl.collisionCheck r proj = false) ∧
    (|proj.getX - pl.pos.1| ≤ pl.size / 2 + r →
      |proj.getY - pl.pos.2| ≤ pl.size / 2 + r →
      (|proj.getX - pl.pos.1| ≤ pl.size / 2 ∨
        |proj.getY - pl.pos.2| ≤ pl.size / 2) →
      pl.collisionCheck r proj = true) ∧
    (pl.size / 2 < |proj.getX - pl.pos.1| →
      |proj.getX - pl.pos.1| ≤ pl.size / 2 + r →
      pl.size / 2 < |proj.getY - pl.pos.2| →
      |proj.getY - pl.pos.2| ≤ pl.size / 2 + r →
      (pl.collisionCheck r proj = true ↔
        (|proj.getX - pl.pos.1| - pl.size / 2) ^ 2 +
          (|proj.getY - pl.pos.2| - pl.size / 2) ^ 2 ≤ r ^ 2)) ∧
    (∀ dx dy : ℚ,
      pl.collisionCheck r (projAt (pl.pos.1 + dx) (pl.pos.2 + dy)) =
        pl.collisionCheck r (projAt (pl.pos.1 - dx) (pl.pos.2 - dy)) ∧
      pl.collisionCheck r (projAt (pl.pos.1 + dx) (pl.pos.2 + dy)) =
        pl.collisionCheck r (projAt (pl.pos.1 - dx) (pl.pos.2 + dy)) ∧
      pl.collisionCheck r (projAt (pl.pos.1 + dx) (pl.pos.2 + dy)) =
        pl.collisionCheck r (projAt (pl.pos.1 + dx) (pl.pos.2 - dy))) ∧
    (0 ≤ pl.size → 0 ≤ r →
      pl.collisionCheck r (projAt pl.pos.1 pl.pos.2) = true) := by
  refine ⟨?_, ?_, ?_, ?_, ?_⟩
  · intro h
    simp only [Player.collisionCheck, gt_iff_lt]
    rw [if_pos h]
  · intro hx hy hband
    have hnot : ¬ (pl.size / 2 + r < |proj.getX - pl.pos.1| ∨
        pl.size / 2 + r < |proj.getY - pl.pos.2|) :=
      not_or.mpr ⟨not_lt.mpr hx, not_lt.mpr hy⟩
    simp only [Player.collisionCheck, gt_iff_lt]
    rw [if_neg hnot, if_pos hband]
  · intro hx1 hx2 hy1 hy2
    have hnot1 : ¬ (pl.size / 2 + r < |proj.getX - pl.pos.1| ∨
        pl.size / 2 + r < |proj.getY - pl.pos.2|) :=
      not_or.mpr ⟨not_lt.mpr hx2, not_lt.mpr hy2⟩
    have hnot2 : ¬ (|proj.getX - pl.pos.1| ≤ pl.size / 2 ∨
        |proj.getY - pl.pos.2| ≤ pl.size / 2) :=
      not_or.mpr ⟨not_le.mpr hx1, not_le.mpr hy1⟩
    simp only [Player.collisionCheck, gt_iff_lt]
    rw [if_neg hnot1, if_neg hnot2]
    exact decide_eq_true_iff
  · intro dx dy
    refine ⟨?_, ?_, ?_⟩ <;>
      refine collisionCheck_congr pl r _ _ ?_ ?_ <;>
        simp [projAt, Projectile.getX, Projectile.getY, add_sub_cancel_left,
          sub_sub_cancel_left, abs_neg]
  · intro hs hr
    have hh : 0 ≤ pl.size / 2 := by linarith
    simp only [Player.collisionCheck, projAt, Projectile.getX, Projectile.getY,
      sub_self, abs_zero, gt_iff_lt]
    rw [if_neg (not_or.mpr ⟨not_lt.mpr (by linarith), not_lt.mpr (by linarith)⟩),
      if_pos (Or.inl hh)]

/-- Concrete instance of C5: the spec §8 scenario — emplacement at
`x = -90` with side 10, projectile radius 3, projectile at the
emplacement's centre — collides. -/
theorem collisionCheck_circle_square_witness :
    samplePlayer0.collisionCheck 3 (projAt samplePlayer0.pos.1 samplePlayer0.pos.2) = true :=
  (collisionCheck_circle_square samplePlayer0 3
    (projAt samplePlayer0.pos.1 samplePlayer0.pos.2)).2.2.2.2
    (by norm_num [samplePlayer0, Player.create]) (by norm_num)

/-- C6 fails as stated: for the reversed cannon at `x = 90` (half-side
5, radius 3) and a projectile resting at `x = 80`, the projectile is
outside the x-axis overlap band (`|raw| = 10 > 8`), yet
`projectileDistance` returns `-2`, which is not strictly positive. -/
theorem distance_outside_band_cex :
    samplePlayer1.size / 2 + 3 < |(restingProjAt 80).getX - samplePlayer1.pos.1| ∧
    samplePlayer1.projectileDistance 3 (restingProjAt 80) = -2 ∧
    ¬ 0 < samplePlayer1.projectileDistance 3 (restingProjAt 80) := by
  refine ⟨?_, ?_, ?_⟩ <;>
    norm_num [samplePlayer1, Player.create, restingProjAt,
      Player.projectileDistance, Projectile.getX]

/-- C6 amended: whenever `collisionCheck` reports true,
`projectileDistance` returns exactly 0; and for a projectile strictly
outside the x-axis overlap band the distance is nonzero with absolute
value equal to the analytic edge gap `|raw| - (halfSide + radius) > 0`
— strictly positive right of the cannon, strictly negative left of
it. -/
theorem collision_implies_distance_zero (pl : Player) (r : ℚ) (proj : Projectile) :
    (pl.collisionCheck r proj = true → pl.projectileDistance r proj = 0) ∧
    (pl.size / 2 + r < |proj.getX - pl.pos.1| →
      |pl.projectileDistance r proj| =
        |proj.getX - pl.pos.1| - (pl.size / 2 + r) ∧
      0 < |pl.projectileDistance r proj| ∧
      (0 < proj.getX - pl.pos.1 → 0 < pl.projectileDistance r proj) ∧
      (proj.getX - pl.pos.1 < 0 → pl.projectileDistance r proj < 0)) := by
  constructor
  · intro hc
    have hdx : |proj.getX - pl.pos.1| ≤ pl.size / 2 + r := by
      by_contra hgt
      push_neg at hgt
      simp only [Player.collisionCheck, gt_iff_lt] at hc
      rw [if_pos (Or.inl hgt)] at hc
      exact Bool.false_ne_true hc
    rcases lt_or_eq_of_le hdx with hlt | heq
    · simp only [Player.projectileDistance]
      rw [if_pos hlt]
    · have hnot : ¬ |proj.getX - pl.pos.1| < pl.size / 2 + r := by
        rw [heq]
        exact lt_irrefl _
      by_cases hpos : 0 < proj.getX - pl.pos.1
      · have hraw : proj.getX - pl.pos.1 = pl.size / 2 + r := by
          rw [abs_of_pos hpos] at heq
          exact heq
        simp only [Player.projectileDistance]
        rw [if_neg hnot, if_pos hpos]
        rw [hraw]
        ring
      · have hraw : proj.getX - pl.pos.1 = -(pl.size / 2 + r) := by
          rw [abs_of_nonpos (not_lt.mp hpos)] at heq
          linarith
        simp only [Player.projectileDistance]
        rw [if_neg hnot, if_neg hpos]
        rw [hraw]
        ring
  · intro hgt
    have hnot : ¬ |proj.getX - pl.pos.1| < pl.size / 2 + r :=
      not_lt.mpr (le_of_lt hgt)
    by_cases hpos : 0 < proj.getX - pl.pos.1
    · have habs : |proj.getX - pl.pos.1| = proj.getX - pl.pos.1 := abs_of_pos hpos
      have hval : pl.projectileDistance r proj =
          (proj.getX - pl.pos.1) - (pl.size / 2 + r) := by
        simp only [Player.projectileDistance]
        rw [if_neg hnot, if_pos hpos]
        ring
      have hposres : 0 < pl.projectileDistance r proj := by
        rw [hval]
        rw [habs] at hgt
        linarith
      refine ⟨?_, abs_pos.mpr (ne_of_gt hposres), fun _ => hposres,
        fun hneg => absurd hpos (not_lt.mpr (le_of_lt hneg))⟩
      rw [hval, abs_of_pos (by rw [hval] at hposres; exact hposres), habs]
    · have hle : proj.getX - pl.pos.1 ≤ 0 := not_lt.mp hpos
      have habs : |proj.getX - pl.pos.1| = -(proj.getX - pl.pos.1) :=
        abs_of_nonpos hle
      have hval : pl.projectileDistance r proj =
          (proj.getX - pl.pos.1) + (pl.size / 2 + r) := by
        simp only [Player.projectileDistance]
        rw [if_neg hnot, if_neg hpos]
        ring
      have hnegres : pl.projectileDistance r proj < 0 := by
        rw [hval]
        rw [habs] at hgt
        linarith
      refine ⟨?_, abs_pos.mpr (ne_of_lt hnegres), fun hp => absurd hp hpos,
        fun _ => hnegres⟩
      rw [hval, abs_of_neg (by rw [hval] at hnegres; exact hnegres), habs]
      ring

/-- Concrete instance of the amended C6 statement: the spec §8
scenario (centre hit) gives a collision and distance exactly 0. -/
theorem collision_implies_distance_zero_witness :
    samplePlayer0.projectileDistance 3 (projAt (-90) 5) = 0 :=
  (collision_implies_distance_zero samplePlayer0 3 (projAt (-90) 5)).1
    (by norm_num [samplePlayer0, Player.create, projAt, Player.collisionCheck,
      Projectile.getX, Projectile.getY])

/-- One `nextPlayer` writes `0` if the current player is `1`, else `1`. -/
lemma nextPlayer_current (g : Game) :
    g.nextPlayer.current_player = if g.current_player = 1 then 0 else 1 := rfl

/-- Iterating `nextPlayer` alternates the current player index. -/
lemma nextPlayer_iterate_current (g : Game)
    (h : g.current_player = 0 ∨ g.current_player = 1) (n : ℕ) :
    (Game.nextPlayer^[n] g).current_player =
      if Even n then g.current_player else 1 - g.current_player := by
  induction n with
  | zero => simp
  | succ k ih =>
    rw [Function.iterate_succ_apply', nextPlayer_current, ih]
    by_cases he : Even k <;> rcases h with hcp | hcp <;>
      simp [he, hcp, Nat.even_add_one]

/-- Every reachable game state has `current_player` equal to 0 or 1. -/
lemma reachable_current_player {g : Game} (h : g.Reachable) :
    g.current_player = 0 ∨ g.current_player = 1 := by
  induction h with
  | init c r => exact Or.inl rfl
  | next _ ih =>
    rcases ih with h0 | h1
    · exact Or.inr (by simp [Game.nextPlayer, h0])
    · exact Or.inl (by simp [Game.nextPlayer, h1])
  | round u _ ih => exact ih
  | wind w _ ih => exact ih
  | playersStep ps _ ih => exact ih

/-- C7: in every reachable game state the current player is 0 or 1,
`nextPlayer` flips it to the other value, and `n` iterated calls
return to the original current player iff `n` is even. -/
theorem nextPlayer_alternation {g : Game} (hg : g.Reachable) :
    (g.current_player = 0 ∨ g.current_player = 1) ∧
    (g.current_player = 0 → g.nextPlayer.current_player = 1) ∧
    (g.current_player = 1 → g.nextPlayer.current_player = 0) ∧
    (∀ n : ℕ,
      (Game.nextPlayer^[n] g).current_player = g.current_player ↔ Even n) := by
  have hmem := reachable_current_player hg
  refine ⟨hmem, ?_, ?_, ?_⟩
  · intro h0
    simp [nextPlayer_current, h0]
  · intro h1
    simp [nextPlayer_current, h1]
  · intro n
    rw [nextPlayer_iterate_current g hmem n]
    by_cases he : Even n
    · simp [he]
    · simp only [he, if_false, iff_false]
      rcases hmem with hcp | hcp <;> simp [hcp]

/-- Concrete instance of C7: two turn switches from the freshly
created game return to player 0. -/
theorem nextPlayer_alternation_witness :
    (Game.nextPlayer^[2] (Game.create 10 3)).current_player =
      (Game.create 10 3).current_player :=
  ((nextPlayer_alternation (Game.Reachable.init 10 3)).2.2.2 2).mpr (by decide)

/-- C8: with the uniform draw `u ∈ [0, 1)` for `random()`, `newRound`
sets `wind = u*(2R) - R` where `R = WIND_SELECTION_RANGE`, a value in
`[-R, R]`, and mutates no other field of the game state. -/
theorem newRound_wind_in_range (g : Game) (u : ℚ) (h0 : 0 ≤ u) (h1 : u < 1) :
    (Game.newRound u g).wind =
      u * (2 * WIND_SELECTION_RANGE) - WIND_SELECTION_RANGE ∧
    -WIND_SELECTION_RANGE ≤ (Game.newRound u g).wind ∧
    (Game.newRound u g).wind ≤ WIND_SELECTION_RANGE ∧
    (Game.newRound u g).cannon_size = g.cannon_size ∧
    (Game.newRound u g).projectile_radius = g.projectile_radius ∧
    (Game.newRound u g).players = g.players ∧
    (Game.newRound u g).current_player = g.current_player := by
  refine ⟨?_, ?_, ?_, rfl, rfl, rfl, rfl⟩
  · simp only [Game.newRound]
    ring
  · simp only [Game.newRound, WIND_SELECTION_RANGE]
    linarith
  · simp only [Game.newRound, WIND_SELECTION_RANGE]
    linarith

/-- Concrete instance of C8: the draw `u = 1/2` lands the wind inside
`[-R, R]`. -/
theorem newRound_wind_in_range_witness :
    -WIND_SELECTION_RANGE ≤ (Game.newRound (1/2) (Game.create 10 3)).wind ∧
    (Game.newRound (1/2) (Game.create 10 3)).wind ≤ WIND_SELECTION_RANGE :=
  ⟨(newRound_wind_in_range (Game.create 10 3) (1/2)
      (by norm_num) (by norm_num)).2.1,
   (newRound_wind_in_range (Game.create 10 3) (1/2)
      (by norm_num) (by norm_num)).2.2.1⟩

/-- C9 fails as stated: `increaseScore` accepts any integer argument,
so a negative one decreases the score below zero.  Concretely, the
fresh player 0 (score 0) after `increaseScore(-1)` has score `-1`. -/
theorem increaseScore_negative_cex :
    (samplePlayer0.increaseScore (-1)).score < samplePlayer0.score ∧
    (samplePlayer0.increaseScore (-1)).score < 0 := by
  constructor <;> norm_num [samplePlayer0, Player.create, Player.increaseScore]

/-- C9 amended: a player's score starts at 0, and it is non-negative
and non-decreasing across every sequence of core operations whose
`increaseScore` arguments are all nonnegative (the game only ever
passes the default `n = 1`); in particular `fire` leaves the score
unchanged. -/
theorem score_monotone (cosDeg sinDeg : ℚ → ℚ) (pl : Player)
    (ops : List PlayerOp)
    (hops : ∀ n : ℤ, PlayerOp.increase n ∈ ops → 0 ≤ n) :
    pl.score ≤ (pl.runOps cosDeg sinDeg ops).score ∧
    (0 ≤ pl.score → 0 ≤ (pl.runOps cosDeg sinDeg ops).score) ∧
    (∀ (b : Bool) (s x : ℚ) (c : String), (Player.create b s x c).score = 0) ∧
    (∀ w a v : ℚ, (pl.fire cosDeg sinDeg w a v).2.score = pl.score) := by
  have key : ∀ (l : List PlayerOp) (q : Player),
      (∀ n : ℤ, PlayerOp.increase n ∈ l → 0 ≤ n) →
      q.score ≤ (q.runOps cosDeg sinDeg l).score := by
    intro l
    induction l with
    | nil => exact fun q _ => le_refl _
    | cons op rest ih =>
      intro q hl
      have hstep : q.score ≤ (q.applyOp cosDeg sinDeg op).score := by
        cases op with
        | increase n =>
          have hn : 0 ≤ n := hl n (List.mem_cons_self _ _)
          simp only [Player.applyOp, Player.increaseScore]
          linarith
        | fireOp w a v => simp [Player.applyOp, Player.fire]
      have htail := ih (q.applyOp cosDeg sinDeg op)
        (fun n hn => hl n (List.mem_cons_of_mem _ hn))
      exact le_trans hstep htail
  exact ⟨key ops pl hops, fun h => le_trans h (key ops pl hops),
    fun b s x c => rfl, fun w a v => rfl⟩

/-- Concrete instance of the amended C9 statement: one default
increment followed by a fire does not decrease player 0's score. -/
theorem score_monotone_witness :
    samplePlayer0.score ≤
      (samplePlayer0.runOps (fun _ => 0) (fun _ => 0)
        [PlayerOp.increase 1, PlayerOp.fireOp 0 45 40]).score :=
  (score_monotone (fun _ => 0) (fun _ => 0) samplePlayer0
    [PlayerOp.increase 1, PlayerOp.fireOp 0 45 40]
    (by
      intro n hn
      simp at hn
      omega)).1

/-- C10: `fire` stores as the last aim (returned by `getAim`) the
post-mirroring angle actually used to construct the projectile:
`(180 - angle, velocity)` for a reversed player, `(angle, velocity)`
otherwise; the projectile's velocity components are decomposed from
exactly the stored angle. -/
theorem fire_stores_mirrored_aim (cosDeg sinDeg : ℚ → ℚ) (pl : Player)
    (game_wind angle velocity : ℚ) :
    (pl.fire cosDeg sinDeg game_wind angle velocity).2.getAim =
      ((if pl.is_reversed then 180 - angle else angle), velocity) ∧
    (pl.fire cosDeg sinDeg game_wind angle velocity).1.xvel =
      velocity *
        cosDeg ((pl.fire cosDeg sinDeg game_wind angle velocity).2.getAim.1) ∧
    (pl.fire cosDeg sinDeg game_wind angle velocity).1.yvel =
      velocity *
        sinDeg ((pl.fire cosDeg sinDeg game_wind angle velocity).2.getAim.1) ∧
    (pl.is_reversed = true →
      (pl.fire cosDeg sinDeg game_wind angle velocity).2.getAim =
        (180 - angle, velocity)) ∧
    (pl.is_reversed = false →
      (pl.fire cosDeg sinDeg game_wind angle velocity).2.getAim =
        (angle, velocity)) := by
  cases hrev : pl.is_reversed <;>
    simp [Player.fire, Player.getAim, Projectile.create, hrev]

/-- Concrete instance of C10: the reversed player 1 firing `(45, 40)`
stores the mirrored aim `(135, 40)`. -/
theorem fire_stores_mirrored_aim_witness :
    (samplePlayer1.fire (fun _ => 0) (fun _ => 0) 0 45 40).2.getAim = (135, 40) := by
  have h := (fire_stores_mirrored_aim (fun _ => 0) (fun _ => 0)
    samplePlayer1 0 45 40).2.2.2.1 rfl
  rw [h]
  norm_num

end ArtilleryGame
